import Mathlib

/-!
Verification of the distributed push-notification service core
(worker pool, rate limiter, provider registry, message-queue codec),
shallowly embedded from the Go sources:
  internal/worker/pool.go, the redis rate limiter, the provider
  manager and mock provider, internal/kafka/kafka.go and
  internal/kafka/consumer.go, and pkg models.
Time values (time.Time) are embedded as Int nanosecond instants;
Go machine ints are embedded as Int (or Nat where the source value
is a count that starts at 0 and only grows).
-/

namespace PushService

/-- Priority enum from pkg/models (PriorityLow = 0 … PriorityUrgent = 3);
Go represents it as an int, embedded as Int. -/
abbrev Priority := Int

/-- A JSON value, standing for the bytes produced by encoding/json.
Values held in the data map (Go map[string]interface{}) are themselves
Json values, as Go's generic unmarshalling produces. -/
inductive Json where
  | null : Json
  | bool (b : Bool) : Json
  | num (n : Int) : Json
  | str (s : String) : Json
  | arr (xs : List Json) : Json
  | obj (fields : List (String × Json)) : Json
deriving Repr

/-- pkg.NotificationMessage. The Data map is embedded as an association
list of string keys to Json values; CreatedAt/ExpiresAt are Int instants
(ExpiresAt is a nullable pointer, hence Option). -/
structure NotificationMessage where
  id : String
  userID : String
  type : String
  title : String
  body : String
  data : List (String × Json)
  priority : Priority
  createdAt : Int
  expiresAt : Option Int
  retry : Int
deriving Repr

/-- pkg.ProviderResponse. -/
structure ProviderResponse where
  success : Bool
  messageID : String := ""
  error : String := ""
deriving Repr

/-- pkg.ProcessingResult. Error is nil (none) on success. -/
structure ProcessingResult where
  messageID : String
  userID : String
  success : Bool
  provider : String := ""
  error : Option String := none
  processedAt : Int := 0
  attempts : Int := 0
deriving Repr

/-- The observable behaviour of a selected provider during one
processNotification run: its name, and for each (1-based) attempt
number the outcome of Send — a transport-level error (Except.error)
or a completed call with a ProviderResponse (Except.ok). -/
structure ProviderBehavior where
  name : String
  send : Nat → Except String ProviderResponse

/-- What one processNotification run does at its exit point:
it calls sendError once, calls sendResult once, or returns without
emitting anything (cancellation during retry backoff). -/
inductive ProcOutcome where
  | emitError (e : String) : ProcOutcome
  | emitResult (r : ProcessingResult) : ProcOutcome
  | abandoned : ProcOutcome
deriving Repr

/-- Environment of one processNotification run: the current time, the
pool's retryAttempts configuration, the outcome of the rate-limiter
call, the outcome of provider selection, and whether the shared
context is observed cancelled at the backoff before each attempt. -/
structure ProcEnv where
  now : Int
  retryAttempts : Nat
  rateLimiter : Except String Bool
  provider : Except String ProviderBehavior
  cancelled : Nat → Bool

/-- The result built when a provider call completes (pool.go lines
196-203, with Error filled on logical failure at line 213). -/
def responseResult (env : ProcEnv) (n : NotificationMessage)
    (p : ProviderBehavior) (resp : ProviderResponse) (attempt : Nat) :
    ProcessingResult :=
  { messageID := n.id
    userID := n.userID
    success := resp.success
    provider := p.name
    error := if resp.success then none
             else some ("provider error: " ++ resp.error)
    processedAt := env.now
    attempts := (attempt : Int) }

/-- The result built when every attempt exhausted with transport errors
(pool.go lines 228-236). -/
def allFailedResult (env : ProcEnv) (n : NotificationMessage)
    (p : ProviderBehavior) (maxAttempts : Nat) (lastErr : String) :
    ProcessingResult :=
  { messageID := n.id
    userID := n.userID
    success := false
    provider := p.name
    error := some ("all " ++ toString maxAttempts ++
      " attempts failed, last error: " ++ lastErr)
    processedAt := env.now
    attempts := (maxAttempts : Int) }

/-- The delivery attempt loop of processNotification (pool.go lines
172-225 and the all-failed epilogue 228-242), compiled to structural
recursion on the number of remaining loop iterations
(remaining = maxAttempts + 1 - attempt at each loop head).
Returns the outcome together with the number of Send calls made.
Before any attempt after the first the loop waits out the backoff,
aborting with no emission if the context is cancelled there.
A transport error records lastErr and continues; a completed call is
terminal at that attempt, whatever resp.success is. -/
def attemptLoopAux (env : ProcEnv) (n : NotificationMessage)
    (p : ProviderBehavior) (maxAttempts : Nat) :
    Nat → Nat → String → ProcOutcome × Nat
  | 0, _, lastErr =>
      (.emitResult (allFailedResult env n p maxAttempts lastErr),
       maxAttempts)
  | remaining + 1, attempt, _lastErr =>
      if attempt > 1 && env.cancelled attempt then
        (.abandoned, attempt - 1)
      else
        match p.send attempt with
        | .error e => attemptLoopAux env n p maxAttempts remaining (attempt + 1) e
        | .ok resp => (.emitResult (responseResult env n p resp attempt), attempt)

/-- Entry into the attempt loop: maxAttempts = retryAttempts + 1
(pool.go line 170), first attempt number 1, no last error yet. -/
def attemptLoop (env : ProcEnv) (n : NotificationMessage)
    (p : ProviderBehavior) : ProcOutcome × Nat :=
  attemptLoopAux env n p (env.retryAttempts + 1) (env.retryAttempts + 1) 1 ""

/-- The expiry test of pool.go line 132: ExpiresAt is non-nil and
time.Now().After(*ExpiresAt), i.e. now is strictly later. -/
def isExpired (n : NotificationMessage) (now : Int) : Bool :=
  match n.expiresAt with
  | none => false
  | some t => now > t

/-- processNotification (pool.go lines 126-243) as a function of its
environment: expiry check, rate-limit check, provider selection, then
the delivery attempt loop. Returns the single outcome at its exit
point and the number of provider Send calls made. -/
def processNotification (env : ProcEnv) (n : NotificationMessage) :
    ProcOutcome × Nat :=
  if isExpired n env.now then
    (.emitError ("notification " ++ n.id ++ " expired"), 0)
  else
    match env.rateLimiter with
    | .error e =>
        (.emitError ("rate limiter error for user " ++ n.userID ++ ": " ++ e), 0)
    | .ok false =>
        (.emitResult
          { messageID := n.id
            userID := n.userID
            success := false
            error := some ("rate limit exceeded for user " ++ n.userID)
            processedAt := env.now
            attempts := n.retry + 1 }, 0)
    | .ok true =>
        match env.provider with
        | .error e => (.emitError ("failed to get provider: " ++ e), 0)
        | .ok p => attemptLoop env n p

/-- Non-blocking send on a bounded channel of capacity cap, as in
sendResult / sendError (pool.go lines 246-261): if the buffer has room
the value is appended and delivered, otherwise it is dropped (and only
logged). Second component is true when the value was dropped. -/
def sendNonBlocking {α : Type} (cap : Nat) (queue : List α) (x : α) :
    List α × Bool :=
  if queue.length < cap then (queue ++ [x], false) else (queue, true)

/-- Pool.Submit (pool.go lines 77-84): non-blocking select on the
bounded job channel; enqueues and returns nil (none) when there is
room, otherwise fails immediately and leaves the buffer unchanged. -/
def Submit (cap : Nat) (queue : List NotificationMessage)
    (n : NotificationMessage) :
    List NotificationMessage × Option String :=
  if queue.length < cap then (queue ++ [n], none)
  else (queue, some "job queue is full")

/-! ## Rate limiter (redis RateLimiter) -/

/-- The state Redis holds for one user's rate-limit key: the counter
value (0 when the key is absent — INCR creates it at 1) and the
remaining expiry set by EXPIRE (none when the key is absent). -/
structure RLState where
  count : Nat
  ttl : Option Int
deriving Repr

/-- RateLimiter.IsAllowed for one user: the atomic Redis pipeline does
INCR (count becomes count+1) and EXPIRE key window (the expiry is reset
to the window on every call); the return value is
count ≤ limit on the post-increment count. -/
def IsAllowed (limit : Nat) (window : Int) (st : RLState) :
    Bool × RLState :=
  let c := st.count + 1
  (decide (c ≤ limit), { count := c, ttl := some window })

/-- A sequence of n consecutive IsAllowed calls for the same user,
with no expiry event in between (the key lives through the window):
returns the list of answers in call order. -/
def runCalls (limit : Nat) (window : Int) : Nat → RLState → List Bool
  | 0, _ => []
  | n + 1, st =>
      let r := IsAllowed limit window st
      r.1 :: runCalls limit window n r.2

/-! ## Provider registry (ProviderManager) -/

/-- A registered provider as seen by one GetProvider call: its name and
the outcome of its health probe during that call. -/
structure RegProvider where
  name : String
  healthy : Bool
deriving Repr, DecidableEq

/-- LoadBalanceStrategy (RoundRobin = 0, Random = 1, HealthBased = 2). -/
inductive Strategy where
  | roundRobin : Strategy
  | random : Strategy
  | healthBased : Strategy
deriving Repr, DecidableEq

/-- ProviderManager.GetProvider. Empty registry fails with the
no-providers-available error. RoundRobin and Random both pick at a
random index (the source's RoundRobin is intentionally identical to
Random); randIndex % length embeds rand.Intn(len(providers)).
HealthBased probes in registration order and takes the first provider
whose health check succeeds, falling back to the first registered
provider when none does. -/
def GetProvider (strat : Strategy) (randIndex : Nat)
    (ps : List RegProvider) : Except String RegProvider :=
  match ps with
  | [] => .error "no providers available"
  | q :: rest =>
    match strat with
    | .roundRobin => .ok ((q :: rest).getD (randIndex % (rest.length + 1)) q)
    | .random => .ok ((q :: rest).getD (randIndex % (rest.length + 1)) q)
    | .healthBased =>
        match (q :: rest).find? (fun p => p.healthy) with
        | some p => .ok p
        | none => .ok q

/-! ## Mock provider (MockProvider.Send) -/

/-- The five canonical failure strings of the mock provider. -/
def mockFailures : List String :=
  ["network timeout", "rate limit exceeded", "invalid token",
   "service unavailable", "message too large"]

/-- Go string slicing s[:n]: defined only when n ≤ len(s), otherwise
the program panics with a bounds error. Go indexes bytes; the
embedding uses the string's characters. -/
def goSliceTo (s : String) (n : Nat) : Option String :=
  if n ≤ s.length then some (s.take n) else none

/-- Outcome of one MockProvider.Send call: a runtime panic, a
transport-level error return, or a completed call with a response. -/
inductive MockSendResult where
  | panicked (msg : String) : MockSendResult
  | errored (e : String) : MockSendResult
  | ok (r : ProviderResponse) : MockSendResult
deriving Repr

/-- MockProvider.Send. The latency wait is observable only through
ctxCancelled (the context fired during it); successTrial is the
outcome of the rand.Float64() < successRate Bernoulli draw, and
failureIdx % 5 embeds rand.Intn(len(failures)). On success the
MessageID is name_unixTime_ID[:8], which panics when the ID is
shorter than 8. -/
def mockSend (name : String) (nowUnix : Int) (ctxCancelled : Bool)
    (successTrial : Bool) (failureIdx : Nat)
    (n : NotificationMessage) : MockSendResult :=
  if ctxCancelled then .errored "context canceled"
  else if successTrial then
    match goSliceTo n.id 8 with
    | none => .panicked "runtime error: slice bounds out of range"
    | some lead =>
        .ok { success := true
              messageID := name ++ "_" ++ toString nowUnix ++ "_" ++ lead }
  else
    .ok { success := false
          error := mockFailures.getD (failureIdx % 5) "" }

/-! ## Message queue codec (kafka Produce / ConsumeClaim) -/

/-- kafka.Message: the broker envelope built by Produce. The Value
field holds the json.Marshal output, embedded as a Json value. -/
structure QueueMessage where
  key : String
  value : Json
  timestamp : Int
  topic : String
  partition : Int
  offset : Int

/-- json.Marshal of a NotificationMessage, following the struct tags
of pkg.NotificationMessage in field order:
id, user_id, type, title, body, data (omitempty), priority,
created_at, expires_at (omitempty), retry. Time instants are embedded
as Json numbers (standing for their injective RFC3339 text form). -/
def marshalNotification (m : NotificationMessage) : Json :=
  .obj ([("id", .str m.id), ("user_id", .str m.userID),
         ("type", .str m.type), ("title", .str m.title),
         ("body", .str m.body)]
    ++ (if m.data.isEmpty then [] else [("data", .obj m.data)])
    ++ [("priority", .num m.priority), ("created_at", .num m.createdAt)]
    ++ (match m.expiresAt with
        | none => []
        | some t => [("expires_at", .num t)])
    ++ [("retry", .num m.retry)])

/-- Field lookup in a decoded JSON object, first occurrence wins
(the encoder never emits duplicate struct keys). -/
def getField : List (String × Json) → String → Option Json
  | [], _ => none
  | (k, v) :: rest, key => if k = key then some v else getField rest key

/-- Unmarshal a string field: a missing field leaves the zero value "",
a non-string value is a type error. -/
def decodeStr (fs : List (String × Json)) (k : String) : Option String :=
  match getField fs k with
  | none => some ""
  | some (.str s) => some s
  | some _ => none

/-- Unmarshal an integer field (priority, created_at, retry): a missing
field leaves the zero value 0. -/
def decodeIntF (fs : List (String × Json)) (k : String) : Option Int :=
  match getField fs k with
  | none => some 0
  | some (.num v) => some v
  | some _ => none

/-- Unmarshal the nullable expires_at field: missing or null leaves the
nil pointer. -/
def decodeOptIntF (fs : List (String × Json)) (k : String) :
    Option (Option Int) :=
  match getField fs k with
  | none => some none
  | some .null => some none
  | some (.num v) => some (some v)
  | some _ => none

/-- Unmarshal the data map: missing or null leaves the nil map,
embedded as the empty association list. -/
def decodeDataF (fs : List (String × Json)) (k : String) :
    Option (List (String × Json)) :=
  match getField fs k with
  | none => some []
  | some .null => some []
  | some (.obj o) => some o
  | some _ => none

/-- json.Unmarshal into a pkg.NotificationMessage, as done by
ConsumeClaim (consumer.go lines 123-132): none on a type error. -/
def unmarshalNotification (j : Json) : Option NotificationMessage :=
  match j with
  | .obj fs => do
      let id ← decodeStr fs "id"
      let uid ← decodeStr fs "user_id"
      let ty ← decodeStr fs "type"
      let ti ← decodeStr fs "title"
      let bo ← decodeStr fs "body"
      let da ← decodeDataF fs "data"
      let pr ← decodeIntF fs "priority"
      let ca ← decodeIntF fs "created_at"
      let ex ← decodeOptIntF fs "expires_at"
      let re ← decodeIntF fs "retry"
      pure { id := id, userID := uid, type := ty, title := ti,
             body := bo, data := da, priority := pr, createdAt := ca,
             expiresAt := ex, retry := re }
  | _ => none

/-- Producer.Produce (kafka.go lines 106-140): marshal the
notification and wrap it in a Message envelope with partition 0. -/
def produceMessage (topic key : String) (ts off : Int)
    (m : NotificationMessage) : QueueMessage :=
  { key := key, value := marshalNotification m, timestamp := ts,
    topic := topic, partition := 0, offset := off }

/-- The deserialization a consumer performs on a dequeued message
(ConsumeClaim unmarshals message.Value). -/
def consumeClaimDecode (msg : QueueMessage) : Option NotificationMessage :=
  unmarshalNotification msg.value

/-! ## Worker pool as a transition system (for the uniqueness invariant) -/

/-- A job in the pool: the notification plus a tag identifying the
queue entry (distinct Submit calls put distinct entries in the
channel even for equal payloads). -/
structure Job where
  idx : Nat
  msg : NotificationMessage

/-- Global pool state: jobs still in the job channel, jobs currently
held by a worker (workerID paired with the job), and finished jobs
with the outcome processNotification produced for them. -/
structure PoolState where
  pending : List Job
  inFlight : List (Nat × Job)
  completed : List (Nat × (ProcOutcome × Nat))

/-- One scheduler step of the pool with W workers: a free worker
receives the next job from the channel (each channel receive delivers
the entry to exactly one worker), or a worker finishes its job,
recording the single outcome of processNotification under some
environment. -/
inductive PoolStep (W : Nat) : PoolState → PoolState → Prop where
  | take (s : PoolState) (w : Nat) (j : Job) (rest : List Job) :
      w < W →
      (∀ q ∈ s.inFlight, q.1 ≠ w) →
      s.pending = j :: rest →
      PoolStep W s
        { pending := rest, inFlight := (w, j) :: s.inFlight,
          completed := s.completed }
  | finish (s : PoolState) (w : Nat) (j : Job)
      (l1 l2 : List (Nat × Job)) (env : ProcEnv) :
      s.inFlight = l1 ++ (w, j) :: l2 →
      PoolStep W s
        { pending := s.pending, inFlight := l1 ++ l2,
          completed := (j.idx, processNotification env j.msg) :: s.completed }

/-- Reachability through pool steps. -/
def Reachable (W : Nat) (s0 s : PoolState) : Prop :=
  Relation.ReflTransGen (PoolStep W) s0 s

/-- The multiset of job tags present anywhere in the pool. -/
def jobIds (s : PoolState) : Multiset Nat :=
  (s.pending.map Job.idx : Multiset Nat)
    + (s.inFlight.map (fun q => q.2.idx) : Multiset Nat)
    + (s.completed.map Prod.fst : Multiset Nat)

/-- Whether an outcome is the single sendError emission. -/
def isEmitError : ProcOutcome → Bool
  | .emitError _ => true
  | _ => false

/-- Whether an outcome is the single sendResult emission. -/
def isEmitResult : ProcOutcome → Bool
  | .emitResult _ => true
  | _ => false

/-- Whether an outcome is the no-emission cancellation exit. -/
def isAbandoned : ProcOutcome → Bool
  | .abandoned => true
  | _ => false

/-! ## Sample inputs -/

/-- A sample notification (id has 10 characters, no expiry, retry 0). -/
def sampleMsg : NotificationMessage :=
  { id := "notif-0001", userID := "user123", type := "alert",
    title := "t", body := "b", data := [], priority := 1,
    createdAt := 0, expiresAt := none, retry := 0 }

/-- The sample notification, already expired at instant 50. -/
def expiredMsg : NotificationMessage :=
  { sampleMsg with expiresAt := some 50 }

/-- A short-id notification (5 characters). -/
def shortIdMsg : NotificationMessage :=
  { sampleMsg with id := "short" }

/-- A provider whose every Send call fails at the transport level. -/
def alwaysFailProvider : ProviderBehavior :=
  { name := "mock", send := fun _ => .error "network timeout" }

/-- A provider whose every Send call completes but reports a logical
rejection. -/
def rejectProvider : ProviderBehavior :=
  { name := "mock", send := fun _ => .ok { success := false, error := "invalid token" } }

/-- Environment: allowed by the rate limiter, always-transport-failing
provider, retryAttempts = 3, never cancelled. -/
def failEnv : ProcEnv :=
  { now := 100, retryAttempts := 3, rateLimiter := .ok true,
    provider := .ok alwaysFailProvider, cancelled := fun _ => false }

/-- Environment: allowed by the rate limiter, logically-rejecting
provider, retryAttempts = 3, never cancelled. -/
def rejectEnv : ProcEnv :=
  { now := 100, retryAttempts := 3, rateLimiter := .ok true,
    provider := .ok rejectProvider, cancelled := fun _ => false }

/-- Environment whose rate limiter denies the user. -/
def deniedEnv : ProcEnv :=
  { now := 100, retryAttempts := 3, rateLimiter := .ok false,
    provider := .ok rejectProvider, cancelled := fun _ => false }

/-- One job wrapping the sample notification. -/
def job0 : Job := { idx := 0, msg := sampleMsg }

/-- Initial pool state holding only job0 in the channel. -/
def poolInit : PoolState :=
  { pending := [job0], inFlight := [], completed := [] }

/-- Pool state after worker 0 took job0. -/
def poolMid : PoolState :=
  { pending := [], inFlight := [(0, job0)], completed := [] }

/-- Pool state after worker 0 finished job0 under rejectEnv. -/
def poolFinal : PoolState :=
  { pending := [], inFlight := [],
    completed := [(0, processNotification rejectEnv sampleMsg)] }

/-! ## Lemmas about the attempt loop -/

/-- One loop iteration, at its loop-head invariant
remaining = maxAttempts + 1 - attempt: when the attempt is within
budget and not cancelled, the iteration is decided by the provider
call's outcome. -/
lemma attemptLoopAux_step (env : ProcEnv) (n : NotificationMessage)
    (p : ProviderBehavior) (M a : Nat) (lastErr : String)
    (_ha1 : 1 ≤ a) (haM : a ≤ M)
    (hnc : a > 1 → env.cancelled a = false) :
    attemptLoopAux env n p M (M + 1 - a) a lastErr =
      match p.send a with
      | .error e => attemptLoopAux env n p M (M - a) (a + 1) e
      | .ok resp => (.emitResult (responseResult env n p resp a), a) := by
  have hrem : M + 1 - a = (M - a) + 1 := by omega
  have hcond : (decide (a > 1) && env.cancelled a) = false := by
    by_cases h : a > 1
    · simp [h, hnc h]
    · simp [h]
  rw [hrem]
  simp only [attemptLoopAux, hcond, Bool.false_eq_true, if_false]

/-- Running the loop through a block of transport-error attempts
reaches attempt k with some recorded last error. -/
lemma attemptLoopAux_pass (env : ProcEnv) (n : NotificationMessage)
    (p : ProviderBehavior) (M k : Nat) (hkM : k ≤ M)
    (hnc : ∀ j, env.cancelled j = false) :
    ∀ (d a : Nat) (lastErr : String), a + d = k → 1 ≤ a →
      (∀ j, a ≤ j → j < k → ∃ e, p.send j = .error e) →
      ∃ le2 : String,
        attemptLoopAux env n p M (M + 1 - a) a lastErr =
          attemptLoopAux env n p M (M + 1 - k) k le2 := by
  intro d
  induction d with
  | zero =>
      intro a lastErr hak _ _
      have : a = k := by omega
      subst this
      exact ⟨lastErr, rfl⟩
  | succ d ih =>
      intro a lastErr hak ha1 herr
      have haM : a ≤ M := by omega
      obtain ⟨e, he⟩ := herr a le_rfl (by omega)
      have hstep := attemptLoopAux_step env n p M a lastErr ha1 haM
        (fun _ => hnc a)
      rw [hstep, he]
      have hsub : M - a = M + 1 - (a + 1) := by omega
      rw [hsub]
      exact ih (a + 1) e (by omega) (by omega)
        (fun j hj1 hj2 => herr j (by omega) hj2)

/-- Running the loop when every attempt from a through M is a
transport error exhausts the budget, ending in the all-failed result
whose last error is that of attempt M. -/
lemma attemptLoopAux_allfail (env : ProcEnv) (n : NotificationMessage)
    (p : ProviderBehavior) (M : Nat) (es : Nat → String)
    (hnc : ∀ j, env.cancelled j = false)
    (hsend : ∀ j, 1 ≤ j → j ≤ M → p.send j = .error (es j)) :
    ∀ (d a : Nat) (lastErr : String), a + d = M + 1 → 1 ≤ a →
      attemptLoopAux env n p M (M + 1 - a) a lastErr =
        (.emitResult (allFailedResult env n p M
          (if a ≤ M then es M else lastErr)), M) := by
  intro d
  induction d with
  | zero =>
      intro a lastErr hak _
      have ha : a = M + 1 := by omega
      have h0 : M + 1 - a = 0 := by omega
      rw [h0, if_neg (by omega)]
      rfl
  | succ d ih =>
      intro a lastErr hak ha1
      have haM : a ≤ M := by omega
      have hstep := attemptLoopAux_step env n p M a lastErr ha1 haM
        (fun _ => hnc a)
      rw [hstep, hsend a ha1 haM]
      have hsub : M - a = M + 1 - (a + 1) := by omega
      rw [hsub]
      show attemptLoopAux env n p M (M + 1 - (a + 1)) (a + 1) (es a) = _
      have h2 := ih (a + 1) (es a) (by omega) (by omega)
      rw [h2, if_pos haM]
      by_cases hc : a + 1 ≤ M
      · rw [if_pos hc]
      · rw [if_neg hc, show a = M from by omega]

/-! ## Claim theorems -/

/-- C5: a notification whose expiresAt is set and in the past at
dequeue time causes processNotification to contact no provider
(zero Send calls), emit no ProcessingResult, and emit exactly one
error. -/
theorem expired_notification_only_error (env : ProcEnv)
    (n : NotificationMessage) (t : Int)
    (ht : n.expiresAt = some t) (hpast : t < env.now) :
    processNotification env n =
      (.emitError ("notification " ++ n.id ++ " expired"), 0) := by
  have hex : isExpired n env.now = true := by
    unfold isExpired
    rw [ht]
    simpa using hpast
  unfold processNotification
  rw [hex]
  simp

/-- C5 witness: the sample message expired at 50 processed at 100. -/
theorem expired_notification_only_error_witness :
    processNotification rejectEnv expiredMsg =
      (.emitError "notification notif-0001 expired", 0) :=
  expired_notification_only_error rejectEnv expiredMsg 50 rfl (by decide)

/-- C10: when the rate limiter denies the user, the terminal
ProcessingResult has Attempts = notification.Retry + 1 (not the zero
provider attempts actually made) and an empty Provider field, and no
provider Send call happens. -/
theorem rate_limited_result_fields (env : ProcEnv)
    (n : NotificationMessage)
    (hexp : isExpired n env.now = false)
    (hrl : env.rateLimiter = .ok false) :
    processNotification env n =
      (.emitResult { messageID := n.id, userID := n.userID,
                     success := false, provider := "",
                     error := some ("rate limit exceeded for user " ++ n.userID),
                     processedAt := env.now, attempts := n.retry + 1 }, 0) := by
  unfold processNotification
  rw [hexp, hrl]
  simp

/-- C10 witness: the sample message (Retry = 0) under a denying rate
limiter gets Attempts = 1, empty Provider, zero Send calls. -/
theorem rate_limited_result_fields_witness :
    processNotification deniedEnv sampleMsg =
      (.emitResult { messageID := "notif-0001", userID := "user123",
                     success := false, provider := "",
                     error := some "rate limit exceeded for user user123",
                     processedAt := 100, attempts := 1 }, 0) :=
  rate_limited_result_fields deniedEnv sampleMsg rfl rfl

/-- C6: Submit is non-blocking: with free space it appends the
notification and returns nil, and on a saturated buffer it fails
immediately with the queue-full error, leaving the buffer unchanged. -/
theorem submit_nonblocking (cap : Nat)
    (queue : List NotificationMessage) (n : NotificationMessage) :
    (queue.length < cap → Submit cap queue n = (queue ++ [n], none)) ∧
    (cap ≤ queue.length →
      Submit cap queue n = (queue, some "job queue is full")) := by
  constructor
  · intro h
    simp [Submit, h]
  · intro h
    rw [Submit, if_neg (by omega)]

/-- C6 witness: one free slot accepts the message; a zero-capacity
buffer rejects it and is unchanged. -/
theorem submit_nonblocking_witness :
    Submit 1 [] sampleMsg = ([sampleMsg], none) ∧
    Submit 0 [] sampleMsg = ([], some "job queue is full") :=
  ⟨(submit_nonblocking 1 [] sampleMsg).1 (by decide),
   (submit_nonblocking 0 [] sampleMsg).2 (by decide)⟩

/-- C1: a logical rejection (Send completes but reports
success = false) at attempt k, after transport errors on the earlier
attempts, is terminal: no further attempt is made (exactly k Send
calls), and the emitted ProcessingResult has Success = false and
Attempts = k; with k = 1 this is exactly one attempt. -/
theorem logical_rejection_terminal (env : ProcEnv)
    (n : NotificationMessage) (p : ProviderBehavior) (k : Nat)
    (resp : ProviderResponse)
    (hexp : isExpired n env.now = false)
    (hrl : env.rateLimiter = .ok true)
    (hp : env.provider = .ok p)
    (hk1 : 1 ≤ k) (hkM : k ≤ env.retryAttempts + 1)
    (hprev : ∀ j, 1 ≤ j → j < k → ∃ e, p.send j = .error e)
    (hnc : ∀ j, env.cancelled j = false)
    (hok : p.send k = .ok resp) (hfail : resp.success = false) :
    processNotification env n =
      (.emitResult { messageID := n.id, userID := n.userID,
                     success := false, provider := p.name,
                     error := some ("provider error: " ++ resp.error),
                     processedAt := env.now, attempts := (k : Int) }, k) := by
  unfold processNotification
  rw [hexp, hrl, hp]
  show attemptLoop env n p = _
  unfold attemptLoop
  obtain ⟨le2, hpass⟩ := attemptLoopAux_pass env n p (env.retryAttempts + 1) k
    hkM hnc (k - 1) 1 "" (by omega) le_rfl hprev
  rw [Nat.add_sub_cancel] at hpass
  rw [hpass, attemptLoopAux_step env n p (env.retryAttempts + 1) k le2 hk1 hkM
    (fun _ => hnc k), hok]
  show (ProcOutcome.emitResult (responseResult env n p resp k), k) = _
  simp [responseResult, hfail]

/-- C1 witness: a first-call rejection under rejectEnv records exactly
one attempt. -/
theorem logical_rejection_terminal_witness :
    processNotification rejectEnv sampleMsg =
      (.emitResult { messageID := "notif-0001", userID := "user123",
                     success := false, provider := "mock",
                     error := some "provider error: invalid token",
                     processedAt := 100, attempts := 1 }, 1) :=
  logical_rejection_terminal rejectEnv sampleMsg rejectProvider 1
    { success := false, error := "invalid token" }
    rfl rfl rfl le_rfl (by omega)
    (fun j hj1 hj2 => absurd hj2 (Nat.not_lt.mpr hj1))
    (fun _ => rfl) rfl rfl

/-- C2: when every Send call is a transport error and the context is
never cancelled, the pool makes exactly retryAttempts + 1 Send calls
and emits one terminal failed result carrying the last transport error
and Attempts = retryAttempts + 1. -/
theorem transport_errors_exhaust_retries (env : ProcEnv)
    (n : NotificationMessage) (p : ProviderBehavior) (es : Nat → String)
    (hexp : isExpired n env.now = false)
    (hrl : env.rateLimiter = .ok true)
    (hp : env.provider = .ok p)
    (hsend : ∀ j, 1 ≤ j → j ≤ env.retryAttempts + 1 →
      p.send j = .error (es j))
    (hnc : ∀ j, env.cancelled j = false) :
    processNotification env n =
      (.emitResult { messageID := n.id, userID := n.userID,
                     success := false, provider := p.name,
                     error := some ("all " ++ toString (env.retryAttempts + 1) ++
                       " attempts failed, last error: " ++
                       es (env.retryAttempts + 1)),
                     processedAt := env.now,
                     attempts := ((env.retryAttempts : Int) + 1) },
       env.retryAttempts + 1) := by
  unfold processNotification
  rw [hexp, hrl, hp]
  show attemptLoop env n p = _
  unfold attemptLoop
  have hall := attemptLoopAux_allfail env n p (env.retryAttempts + 1) es hnc
    hsend (env.retryAttempts + 1) 1 "" (by omega) le_rfl
  rw [Nat.add_sub_cancel] at hall
  rw [hall, if_pos (by omega)]
  simp [allFailedResult]

/-- C2 witness: retryAttempts = 3, every call a transport error:
4 attempts, terminal failure with Attempts = 4. -/
theorem transport_errors_exhaust_retries_witness :
    processNotification failEnv sampleMsg =
      (.emitResult { messageID := "notif-0001", userID := "user123",
                     success := false, provider := "mock",
                     error := some "all 4 attempts failed, last error: network timeout",
                     processedAt := 100, attempts := 4 }, 4) :=
  transport_errors_exhaust_retries failEnv sampleMsg alwaysFailProvider
    (fun _ => "network timeout") rfl rfl rfl
    (fun _ _ _ => rfl) (fun _ => rfl)

/-- The i-th (0-based) of n consecutive IsAllowed calls starting from
counter c answers whether c + i + 1 ≤ limit. -/
lemma runCalls_get (limit : Nat) (window : Int) (n : Nat) :
    ∀ (i c : Nat) (t : Option Int), i < n →
      (runCalls limit window n ⟨c, t⟩).get? i =
        some (decide (c + i + 1 ≤ limit)) := by
  induction n with
  | zero => intro i c t h; omega
  | succ n ih =>
      intro i c t h
      cases i with
      | zero => simp [runCalls, IsAllowed]
      | succ i =>
          have h2 := ih i (c + 1) (some window) (by omega)
          simp only [runCalls, IsAllowed, List.get?_cons_succ]
          rw [show c + (i + 1) + 1 = c + 1 + i + 1 from by omega]
          exact h2

/-- C4: IsAllowed increments the user's counter and resets its expiry
to the window on every call, answering true iff the post-increment
count is at most the limit; consequently, starting from an absent key
and with no expiry event between calls, every call numbered beyond
the limit answers false. -/
theorem rate_limiter_window (limit : Nat) (window : Int) (st : RLState)
    (n i : Nat) (hi : i < n) (hover : limit < i + 1) :
    ((IsAllowed limit window st).1 = true ↔ st.count + 1 ≤ limit) ∧
    ((IsAllowed limit window st).2 =
      { count := st.count + 1, ttl := some window }) ∧
    ((runCalls limit window n ⟨0, none⟩).get? i = some false) := by
  refine ⟨by simp [IsAllowed], by simp [IsAllowed], ?_⟩
  rw [runCalls_get limit window n i 0 none hi]
  simp
  omega

/-- C4 witness: limit 2, three calls; the third call (i = 2) answers
false, and one call from count 0 answers true with counter 1 and a
fresh window. -/
theorem rate_limiter_window_witness :
    (((IsAllowed 2 60 ⟨0, none⟩).1 = true) ↔ (0 + 1 ≤ 2)) ∧
    ((IsAllowed 2 60 ⟨0, none⟩).2 = { count := 0 + 1, ttl := some 60 }) ∧
    ((runCalls 2 60 3 ⟨0, none⟩).get? 2 = some false) :=
  rate_limiter_window 2 60 ⟨0, none⟩ 3 2 (by decide) (by decide)

/-- C7: under HealthBased, GetProvider fails with the
no-providers-available error exactly on an empty registry; otherwise
it returns the first provider in registration order whose health
probe succeeds, or the first registered provider when none does; in
particular [unhealthy, healthy] selects the healthy one. -/
theorem healthbased_selection (ps : List RegProvider) (r : Nat) :
    (GetProvider .healthBased r ps = .error "no providers available" ↔
      ps = []) ∧
    (∀ p, ps.find? (fun q => q.healthy) = some p →
      GetProvider .healthBased r ps = .ok p) ∧
    (∀ h : ps ≠ [], ps.find? (fun q => q.healthy) = none →
      GetProvider .healthBased r ps = .ok (ps.head h)) ∧
    (∀ u v : RegProvider, u.healthy = false → v.healthy = true →
      GetProvider .healthBased r [u, v] = .ok v) := by
  refine ⟨?_, ?_, ?_, ?_⟩
  · cases ps with
    | nil => simp [GetProvider]
    | cons q rest =>
        simp only [GetProvider]
        cases hf : (q :: rest).find? (fun p => p.healthy) <;> simp [hf]
  · intro p hp
    cases ps with
    | nil => simp at hp
    | cons q rest => simp [GetProvider, hp]
  · intro h hf
    cases ps with
    | nil => exact absurd rfl h
    | cons q rest => simp [GetProvider, hf]
  · intro u v hu hv
    simp [GetProvider, List.find?, hu, hv]

/-- C7 witness: registration order [unhealthy fcm, healthy apns]
selects apns, and the empty registry errors. -/
theorem healthbased_selection_witness :
    GetProvider .healthBased 0 [⟨"fcm", false⟩, ⟨"apns", true⟩] =
      .ok ⟨"apns", true⟩ ∧
    GetProvider .healthBased 0 [] = .error "no providers available" :=
  ⟨(healthbased_selection [⟨"fcm", false⟩, ⟨"apns", true⟩] 0).2.2.2
      ⟨"fcm", false⟩ ⟨"apns", true⟩ rfl rfl,
   (healthbased_selection [] 0).1.mpr rfl⟩

/-- C9: when the notification ID has at least 8 characters,
MockProvider.Send never slices out of range: the success branch
returns MessageID = name_unixTime_(first 8 of ID) and the failure
branch returns one of the canonical failure strings; and the bound is
necessary — a shorter ID panics on the success branch. -/
theorem mocksend_id_bound (name : String) (ts : Int) (fi : Nat)
    (n : NotificationMessage) (hlen : 8 ≤ n.id.length) :
    (mockSend name ts false true fi n =
      .ok { success := true,
            messageID := name ++ "_" ++ toString ts ++ "_" ++ n.id.take 8,
            error := "" }) ∧
    (mockSend name ts false false fi n =
      .ok { success := false, messageID := "",
            error := mockFailures.getD (fi % 5) "" }) ∧
    (∀ m : NotificationMessage, m.id.length < 8 →
      mockSend name ts false true fi m =
        .panicked "runtime error: slice bounds out of range") := by
  refine ⟨?_, ?_, ?_⟩
  · simp [mockSend, goSliceTo, hlen]
  · simp [mockSend]
  · intro m hm
    simp [mockSend, goSliceTo, Nat.not_le.mpr hm]

/-- C9 witness: the 10-character sample ID embeds its first 8
characters in the MessageID; the 5-character ID panics. -/
theorem mocksend_id_bound_witness :
    (mockSend "mock" 1700000000 false true 0 sampleMsg =
      .ok { success := true, messageID := "mock_1700000000_notif-00",
            error := "" }) ∧
    (mockSend "mock" 1700000000 false false 2 sampleMsg =
      .ok { success := false, messageID := "", error := "invalid token" }) ∧
    (mockSend "mock" 1700000000 false true 0 shortIdMsg =
      .panicked "runtime error: slice bounds out of range") :=
  ⟨(mocksend_id_bound "mock" 1700000000 0 sampleMsg (by decide)).1,
   (mocksend_id_bound "mock" 1700000000 2 sampleMsg (by decide)).2.1,
   (mocksend_id_bound "mock" 1700000000 0 sampleMsg (by decide)).2.2
      shortIdMsg (by decide)⟩

/-- C8: a NotificationMessage marshalled by Produce and wrapped in a
queue Message deserializes by the consumer to field-for-field
equality with the original. -/
theorem queue_roundtrip (topic key : String) (ts off : Int)
    (m : NotificationMessage) :
    consumeClaimDecode (produceMessage topic key ts off m) = some m := by
  obtain ⟨id, uid, ty, ti, bo, da, pr, ca, ex, re⟩ := m
  cases da <;> cases ex <;>
    simp [consumeClaimDecode, produceMessage, unmarshalNotification,
      marshalNotification, decodeStr, decodeIntF, decodeOptIntF,
      decodeDataF, getField]

/-- One pool step preserves the multiset of job tags. -/
lemma jobIds_step {W : Nat} {s s2 : PoolState} (h : PoolStep W s s2) :
    jobIds s2 = jobIds s := by
  cases h with
  | take w j rest hw hfree hpend =>
      simp only [jobIds, hpend, List.map_cons, Multiset.coe_add,
        Multiset.coe_eq_coe]
      simp only [List.append_assoc, List.cons_append]
      exact List.perm_middle
  | finish w j l1 l2 env hin =>
      simp only [jobIds, hin, List.map_append, List.map_cons,
        Multiset.coe_add, Multiset.coe_eq_coe]
      simp only [List.append_assoc, List.cons_append]
      exact List.Perm.append_left _
        (List.Perm.append_left _ List.perm_middle)

/-- Along any reachable execution the multiset of job tags is
unchanged. -/
lemma jobIds_reachable {W : Nat} {s0 s : PoolState}
    (h : Reachable W s0 s) : jobIds s = jobIds s0 := by
  induction h with
  | refl => rfl
  | tail _ hstep ih => rw [jobIds_step hstep, ih]

/-- C3: starting from distinct queued jobs, in every reachable pool
state no job is held by two workers at once, each job has at most one
recorded terminal outcome, a drained pool has exactly one outcome per
submitted job, each outcome is exactly one of
error-emitted / result-emitted / abandoned, and the non-blocking
report either delivers or drops (when the sink is full) exactly
once. -/
theorem job_lifecycle_invariant (W : Nat) (s0 s : PoolState)
    (hin0 : s0.inFlight = []) (hc0 : s0.completed = [])
    (hnd : (s0.pending.map Job.idx).Nodup)
    (hr : Reachable W s0 s) :
    (∀ w1 w2 j1 j2, (w1, j1) ∈ s.inFlight → (w2, j2) ∈ s.inFlight →
        j1.idx = j2.idx → w1 = w2 ∧ j1 = j2) ∧
    (s.completed.map Prod.fst).Nodup ∧
    (s.pending = [] → s.inFlight = [] →
      (↑(s.completed.map Prod.fst) : Multiset Nat) =
        ↑(s0.pending.map Job.idx)) ∧
    (∀ c ∈ s.completed,
      (isEmitError c.2.1).toNat + (isEmitResult c.2.1).toNat +
        (isAbandoned c.2.1).toNat = 1) ∧
    (∀ (cap : Nat) (q : List ProcessingResult) (r : ProcessingResult),
      (sendNonBlocking cap q r = (q ++ [r], false) ∧ q.length < cap) ∨
      (sendNonBlocking cap q r = (q, true) ∧ cap ≤ q.length)) := by
  have hperm : jobIds s = jobIds s0 := jobIds_reachable hr
  have hids0 : jobIds s0 = ↑(s0.pending.map Job.idx) := by
    simp [jobIds, hin0, hc0]
  have hnodup : (jobIds s).Nodup := by
    rw [hperm, hids0, Multiset.coe_nodup]
    exact hnd
  have h1 := Multiset.nodup_add.mp hnodup
  have h2 := Multiset.nodup_add.mp h1.1
  have hinF : (s.inFlight.map (fun q => q.2.idx)).Nodup := by
    have := h2.2.1
    rwa [Multiset.coe_nodup] at this
  have hcompN : (s.completed.map Prod.fst).Nodup := by
    have := h1.2.1
    rwa [Multiset.coe_nodup] at this
  refine ⟨?_, hcompN, ?_, ?_, ?_⟩
  · intro w1 w2 j1 j2 hm1 hm2 heq
    have hpair : (w1, j1) = (w2, j2) :=
      List.inj_on_of_nodup_map hinF hm1 hm2 heq
    exact ⟨congrArg Prod.fst hpair, congrArg Prod.snd hpair⟩
  · intro hp hi
    rw [← hids0, ← hperm]
    simp [jobIds, hp, hi]
  · intro c _
    rcases c with ⟨i, o, cnt⟩
    cases o <;> rfl
  · intro cap q r
    by_cases h : q.length < cap
    · exact Or.inl ⟨by simp [sendNonBlocking, h], h⟩
    · exact Or.inr ⟨by simp [sendNonBlocking, h], by omega⟩

/-- C3 witness: one worker takes and finishes the single queued job;
the drained pool has exactly one outcome, for that job. -/
theorem job_lifecycle_invariant_witness :
    (∀ w1 w2 j1 j2, (w1, j1) ∈ poolFinal.inFlight →
        (w2, j2) ∈ poolFinal.inFlight →
        j1.idx = j2.idx → w1 = w2 ∧ j1 = j2) ∧
    (poolFinal.completed.map Prod.fst).Nodup ∧
    (poolFinal.pending = [] → poolFinal.inFlight = [] →
      (↑(poolFinal.completed.map Prod.fst) : Multiset Nat) =
        ↑(poolInit.pending.map Job.idx)) ∧
    (∀ c ∈ poolFinal.completed,
      (isEmitError c.2.1).toNat + (isEmitResult c.2.1).toNat +
        (isAbandoned c.2.1).toNat = 1) ∧
    (∀ (cap : Nat) (q : List ProcessingResult) (r : ProcessingResult),
      (sendNonBlocking cap q r = (q ++ [r], false) ∧ q.length < cap) ∨
      (sendNonBlocking cap q r = (q, true) ∧ cap ≤ q.length)) := by
  have step1 : PoolStep 1 poolInit poolMid :=
    PoolStep.take poolInit 0 job0 [] (by omega)
      (by intro q hq; simp [poolInit] at hq) rfl
  have step2 : PoolStep 1 poolMid poolFinal :=
    PoolStep.finish poolMid 0 job0 [] [] rejectEnv rfl
  exact job_lifecycle_invariant 1 poolInit poolFinal rfl rfl
    (by simp [poolInit, job0])
    (Relation.ReflTransGen.tail (Relation.ReflTransGen.single step1) step2)

end PushService
